import Mathlib

/-! Verification development for the periodic-job backend of the 1k-validators
service. The definitions below are a shallow embedding of the TypeScript
source: the cron-callback latch skeletons from the job-start module, the
candidate / era-points / delayed-transaction collections and their operations
from `src/db/index.ts`, and the era-points job from `src/jobs.ts`. Document
collections are modelled as in-memory lists; Mongo `findOne` is `List.find?`
and `findOneAndUpdate` rewrites the first matching document in place.
Timestamps and other JS numbers are `Int` (or `Nat` where the source value is
a count), and fields that a document may lack are `Option`. -/

set_option maxRecDepth 8000

/-- Shallow embedding of a Mongo `findOneAndUpdate` on an in-memory
collection: the first element satisfying `p` is replaced by its image under
`f`; every other element is left in place. -/
def findOneAndUpdateBy {α : Type} (p : α → Bool) (f : α → α) : List α → List α
  | [] => []
  | x :: xs => if p x then f x :: xs else x :: findOneAndUpdateBy p f xs

/-! ### Cron callback skeletons

The job-start module registers each job with a `CronJob`. Ten jobs (validity,
score, eraStats, eraPoints, activeValidator, inclusion, sessionKey,
unclaimedEras, validatorPref, extNominations) share the latch skeleton

    let running = false;
    cron(async () => { if (running) return; running = true; <body>; running = false; });

while the monitor, clearOffline, execution, rewardClaim, cancel and stale
jobs register a callback with no `running` flag at all. `JobRun` tracks the
latch variable together with the number of job bodies currently in flight
(a body suspends at each `await`, so a later tick can fire while a prior
body is still running). -/

structure JobRun where
  running : Bool
  active : Nat
deriving DecidableEq

/-- Arrival of a cron tick at a latched job (`if (running) return;
running = true;` followed by the body starting): a tick that arrives while
`running` is set returns immediately, leaving the state untouched — nothing
is queued; otherwise the latch is taken and one more body is in flight. -/
def latchedTickStart (s : JobRun) : JobRun :=
  if s.running then s else { running := true, active := s.active + 1 }

/-- Normal completion of a latched job body (`running = false;` at the end
of the callback). -/
def latchedBodyFinish (s : JobRun) : JobRun :=
  { running := false, active := s.active - 1 }

/-- Arrival of a cron tick at the execution job: its callback has no
`running` flag, so every tick starts a body, even while a prior invocation
is still in flight. -/
def executionTickStart (s : JobRun) : JobRun :=
  { s with active := s.active + 1 }

/-- A whole-invocation view of a latched cron callback, for reasoning about
body failure: `running` is the latch and `bodiesRun` counts completed
dispatches of the body. -/
structure LatchTrace where
  running : Bool
  bodiesRun : Nat
deriving DecidableEq

/-- One full tick of the validity-style latched callback (also score,
eraStats, activeValidator, inclusion, sessionKey, unclaimedEras,
validatorPref, extNominations). The body is not wrapped in any
`try`/`catch`/`finally`, so when it throws, the trailing `running = false`
statement is skipped and the latch stays set. -/
def validityTickRun (s : LatchTrace) (throws : Bool) : LatchTrace :=
  if s.running then s
  else if throws then { running := true, bodiesRun := s.bodiesRun + 1 }
  else { running := false, bodiesRun := s.bodiesRun + 1 }

/-- One full tick of the era-points cron callback: its body is wrapped in
`try { await eraPointsJob(db, chaindata); } catch (e) { logger.warn(...) }`,
so the trailing `running = false` executes whether or not the body throws. -/
def eraPointsTickRun (s : LatchTrace) (throws : Bool) : LatchTrace :=
  if s.running then s
  else
    match throws with
    | true => { running := false, bodiesRun := s.bodiesRun + 1 }
    | false => { running := false, bodiesRun := s.bodiesRun + 1 }

/-! ### The era-points backfill loop

`eraPointsJob` iterates `for (let i = activeEra - 1; i > activeEra - 84 && i >= 0; i--)`.
The loop is embedded with explicit fuel; 84 units of fuel are enough since
the guard `i > activeEra - 84` stops the loop after at most 83 steps. -/

def backfillAux (activeEra : Int) : Nat → Int → List Int
  | 0, _ => []
  | fuel + 1, i =>
    if i > activeEra - 84 ∧ i ≥ 0 then i :: backfillAux activeEra fuel (i - 1) else []

/-- The era indices visited, in order, by the backfill loop of
`eraPointsJob` for a given active era. -/
def backfillEras (activeEra : Int) : List Int :=
  backfillAux activeEra 84 (activeEra - 1)

/-! ### Median and average, from `setTotalEraPoints` in `src/db/index.ts` -/

/-- The `getMedian` closure: sort ascending with the numeric comparator
`(a, b) => a - b`, return the mean of the two middle elements for an even
length and the middle element for an odd length; an empty array falls into
the `else` branch, which only logs and returns `undefined` (here `none`).
JS `Array.prototype.sort` with a numeric comparator produces the unique
ascending reordering of the values, embedded here as an insertion sort. -/
def getMedian (array : List ℚ) : Option ℚ :=
  if array.length ≥ 1 then
    let s := List.insertionSort (fun a b : ℚ => a ≤ b) array
    if s.length % 2 = 0 then
      some ((s.getD (s.length / 2 - 1) 0 + s.getD (s.length / 2) 0) / 2)
    else
      some (s.getD ((s.length - 1) / 2) 0)
  else none

/-- The `getAverage` closure: `list.reduce((prev, curr) => prev + curr) / list.length`.
`reduce` with no initial value throws on an empty array, so the result is an
`Option` that is `none` exactly on empty input. -/
def getAverage (list : List ℚ) : Option ℚ :=
  match list with
  | [] => none
  | _ => some (list.foldl (fun prev curr => prev + curr) 0 / list.length)

/-! ### Delayed transactions -/

structure DelayedTxRow where
  number : Int
  controller : String
  targets : List String
  callHash : String
deriving DecidableEq

/-- `addDelayedTx` constructs a new `delayedTxModel` document and calls
`.save()`: an unconditional insert. There is no `findOne` guard and the
embedded source declares no unique index, so the document is appended
as-is. -/
def addDelayedTx (store : List DelayedTxRow) (number : Int) (controller : String)
    (targets : List String) (callHash : String) : List DelayedTxRow :=
  store ++ [{ number := number, controller := controller,
              targets := targets, callHash := callHash }]

/-- `deleteDelayedTx` removes one document matching `(number, controller)`
(`deleteOne`). -/
def deleteDelayedTx (store : List DelayedTxRow) (number : Int)
    (controller : String) : List DelayedTxRow :=
  match store.find? (fun r => r.number == number && r.controller == controller) with
  | none => store
  | some r => store.erase r

/-! ### The candidate collection

Candidate documents are loose Mongo maps; the fields touched by the embedded
operations are made explicit, with `Option` for fields a document may lack.
A document created by `reportOnline` for an unknown telemetry name carries no
`stash` field at all, which is `stash := none` here. -/

inductive InvalidityType where
  | ONLINE
  | VALIDATE_INTENTION
  | CLIENT_UPGRADE
  | CONNECTION_TIME
  | IDENTITY
  | ACCUMULATED_OFFLINE_TIME
  | REWARD_DESTINATION
  | COMMISION
  | SELF_STAKE
  | UNCLAIMED_REWARDS
  | BLOCKED
  | KUSAMA_RANK
deriving DecidableEq, Fintype

/-- One element of a candidate's `invalidity` list:
`{type, valid, updated, details}`. -/
structure InvalidityEntry where
  type : InvalidityType
  valid : Bool
  updated : Int
  details : String
deriving DecidableEq

structure FaultEvent where
  when : Int
  reason : String
  prevRank : Int
deriving DecidableEq

structure RankEvent where
  when : Int
  startEra : Int
  activeEra : Int
deriving DecidableEq

structure Candidate where
  name : String := ""
  stash : Option String := none
  kusamaStash : Option String := none
  skipSelfStake : Bool := false
  bio : String := ""
  telemetryId : Option Int := none
  nodeRefs : Int := 0
  version : String := ""
  discoveredAt : Int := 0
  onlineSince : Int := 0
  offlineSince : Int := 0
  offlineAccumulated : Int := 0
  rank : Int := 0
  invalidity : List InvalidityEntry := []
  faultEvents : List FaultEvent := []
  rankEvents : List RankEvent := []
deriving DecidableEq

structure ChainMetadata where
  name : String
  decimals : Int
deriving DecidableEq

/-- The store state relevant to the candidate operations (the class `Db`). -/
structure Db where
  candidates : List Candidate := []
  chainMetadata : Option ChainMetadata := none
deriving DecidableEq

/-- The Mongo filter `{ stash: address }`: a document matches when its
`stash` field holds that string (an absent field matches no string). -/
def byStash (address : String) (c : Candidate) : Bool :=
  c.stash == some address

/-- The Mongo filter `{ name }`. -/
def byName (name : String) (c : Candidate) : Bool :=
  c.name == name

/-- The Mongo filter `{ telemetryId }`. -/
def byTelemetryId (telemetryId : Int) (c : Candidate) : Bool :=
  c.telemetryId == some telemetryId

/-- `allCandidates` runs `candidateModel.find({ stash: /.*/ })`: a `$regex`
filter matches only documents whose `stash` field exists and is a string, so
documents without a stash are excluded. -/
def allCandidates (db : Db) : List Candidate :=
  db.candidates.filter (fun c => c.stash.isSome)

/-- JS truthiness of an optional string: `details ? details : fallback`
takes the fallback when `details` is absent or the empty string. -/
def jsStringOr (details : Option String) (fallback : String) : String :=
  match details with
  | some d => if d == "" then fallback else d
  | none => fallback

/-- The shared body of every type-specific invalidity setter in
`src/db/index.ts`: `findOne({stash: address})`; if no candidate, log and
return; otherwise keep the entries of every other type
(`data.invalidity.filter(r => r.type !== T)`), append one fresh entry
`{valid, type: T, updated: Date.now(), details}` (the details string is `""`
when valid, otherwise `msg data`), and write the list back through
`findOneAndUpdate({stash: address}, ...)`. -/
def upsertInvalidity (db : Db) (address : String) (t : InvalidityType)
    (validity : Bool) (now : Int) (msg : Candidate → String) : Db :=
  match db.candidates.find? (byStash address) with
  | none => db
  | some data =>
    let newList :=
      data.invalidity.filter (fun r => r.type != t) ++
        [{ type := t, valid := validity, updated := now,
           details := if validity then "" else msg data }]
    let updated :=
      findOneAndUpdateBy (byStash address)
        (fun c => { c with invalidity := newList }) db.candidates
    { db with candidates := updated }

/-- `setOnlineValidity`. -/
def setOnlineValidity (db : Db) (address : String) (validity : Bool) (now : Int) : Db :=
  upsertInvalidity db address .ONLINE validity now
    (fun data => data.name ++ " offline. Offline since " ++ toString data.offlineSince ++ ".")

/-- `setValidateIntentionValidity`. -/
def setValidateIntentionValidity (db : Db) (address : String) (validity : Bool)
    (now : Int) : Db :=
  upsertInvalidity db address .VALIDATE_INTENTION validity now
    (fun data => data.name ++ " does not have a validate intention.")

/-- `setLatestClientReleaseValidity`. -/
def setLatestClientReleaseValidity (db : Db) (address : String) (validity : Bool)
    (now : Int) : Db :=
  upsertInvalidity db address .CLIENT_UPGRADE validity now
    (fun data => data.name ++ " is not on the latest client version")

/-- `setConnectionTimeInvalidity`. -/
def setConnectionTimeInvalidity (db : Db) (address : String) (validity : Bool)
    (now : Int) : Db :=
  upsertInvalidity db address .CONNECTION_TIME validity now
    (fun data => data.name ++ " has not been connected for minimum length")

/-- `setIdentityInvalidity`, with its optional `details` argument. -/
def setIdentityInvalidity (db : Db) (address : String) (validity : Bool)
    (details : Option String) (now : Int) : Db :=
  upsertInvalidity db address .IDENTITY validity now
    (fun data => jsStringOr details (data.name ++ " has not properly set their identity"))

/-- `setOfflineAccumulatedInvalidity`. -/
def setOfflineAccumulatedInvalidity (db : Db) (address : String) (validity : Bool)
    (now : Int) : Db :=
  upsertInvalidity db address .ACCUMULATED_OFFLINE_TIME validity now
    (fun data => data.name ++ " has been offline " ++
      toString (data.offlineAccumulated / 1000 / 60) ++ " minutes this week.")

/-- `setRewardDestinationInvalidity`. -/
def setRewardDestinationInvalidity (db : Db) (address : String) (validity : Bool)
    (now : Int) : Db :=
  upsertInvalidity db address .REWARD_DESTINATION validity now
    (fun data => data.name ++ " does not have reward destination as Staked")

/-- `setCommissionInvalidity`, with its optional `details` argument. -/
def setCommissionInvalidity (db : Db) (address : String) (validity : Bool)
    (details : Option String) (now : Int) : Db :=
  upsertInvalidity db address .COMMISION validity now
    (fun data => jsStringOr details (data.name ++ " has not properly set their commission"))

/-- `setSelfStakeInvalidity`, with its optional `details` argument. -/
def setSelfStakeInvalidity (db : Db) (address : String) (validity : Bool)
    (details : Option String) (now : Int) : Db :=
  upsertInvalidity db address .SELF_STAKE validity now
    (fun data => jsStringOr details (data.name ++ " has not properly bonded enough self stake"))

/-- `setUnclaimedInvalidity`, with its optional `details` argument. -/
def setUnclaimedInvalidity (db : Db) (address : String) (validity : Bool)
    (details : Option String) (now : Int) : Db :=
  upsertInvalidity db address .UNCLAIMED_REWARDS validity now
    (fun data => jsStringOr details (data.name ++ " has not properly claimed era rewards"))

/-- `setBlockedInvalidity`, with its optional `details` argument. -/
def setBlockedInvalidity (db : Db) (address : String) (validity : Bool)
    (details : Option String) (now : Int) : Db :=
  upsertInvalidity db address .BLOCKED validity now
    (fun data => jsStringOr details (data.name ++ " blocks external nominations"))

/-- `setKusamaRankInvalidity`, with its optional `details` argument. -/
def setKusamaRankInvalidity (db : Db) (address : String) (validity : Bool)
    (details : Option String) (now : Int) : Db :=
  upsertInvalidity db address .KUSAMA_RANK validity now
    (fun data => jsStringOr details (data.name ++ " has not properly claimed era rewards"))

/-- Telemetry node details `[name, client, version, null, networkId]`;
`reportOnline` reads `details[0]` (the name) and `details[2]` (the version). -/
structure NodeDetails where
  name : String
  client : String
  version : String
  networkId : Option String
deriving DecidableEq

/-- The candidate document created by `reportOnline` for a telemetry name
with no existing document: only `telemetryId`, `nodeRefs: 1`, `name`,
`version`, `discoveredAt`, `onlineSince` and `offlineSince` are set — in
particular it has no `stash` field. -/
def telemetryCandidate (telemetryId : Int) (details : NodeDetails) (now : Int) : Candidate :=
  { telemetryId := some telemetryId, nodeRefs := 1, name := details.name,
    version := details.version, discoveredAt := now, onlineSince := now,
    offlineSince := 0 }

/-- A fresh `{valid: true, type: "ONLINE", updated: Date.now(), details: ""}`
entry. `Date.now()` is modelled by the tick's `now`. -/
def onlineEntry (now : Int) : InvalidityEntry :=
  { type := .ONLINE, valid := true, updated := now, details := "" }

/-- `reportOnline`: `findOne({name})`; absent → save a brand-new candidate
document. Otherwise, with `invalidityReasons` the entries of type other than
`ONLINE` read once from the found document: (i) when `discoveredAt` is
falsy, update discovery/online fields and the invalidity list; (ii) always
update `telemetryId`, `onlineSince`, `version`, the invalidity list and
`$inc: {nodeRefs: 1}`; (iii) when the document was offline, zero
`offlineSince` and add the elapsed time to `offlineAccumulated`. -/
def reportOnline (db : Db) (telemetryId : Int) (details : NodeDetails) (now : Int) : Db :=
  match db.candidates.find? (byName details.name) with
  | none =>
    { db with candidates := db.candidates ++ [telemetryCandidate telemetryId details now] }
  | some data =>
    let reasons := data.invalidity.filter (fun r => r.type != .ONLINE)
    let step1 :=
      if data.discoveredAt == 0 then
        findOneAndUpdateBy (byName details.name)
          (fun c => { c with telemetryId := some telemetryId, discoveredAt := now,
                              onlineSince := now, offlineSince := 0,
                              invalidity := reasons ++ [onlineEntry now] })
          db.candidates
      else db.candidates
    let step2 :=
      findOneAndUpdateBy (byName details.name)
        (fun c => { c with telemetryId := some telemetryId, onlineSince := now,
                            version := details.version,
                            invalidity := reasons ++ [onlineEntry now],
                            nodeRefs := c.nodeRefs + 1 })
        step1
    let step3 :=
      if data.offlineSince != 0 then
        findOneAndUpdateBy (byName details.name)
          (fun c => { c with offlineSince := 0,
                              offlineAccumulated :=
                                data.offlineAccumulated + (now - data.offlineSince) })
          step2
      else step2
    { db with candidates := step3 }

/-- `reportOffline`: `findOne({telemetryId})`; absent → no-op. Otherwise an
`ONLINE: false` entry replaces any prior `ONLINE` entry; with more than one
node ref only `nodeRefs` is decremented, otherwise the candidate is also
marked offline. The `name` argument is only logged by the source. -/
def reportOffline (db : Db) (telemetryId : Int) (name : String) (now : Int) : Db :=
  match db.candidates.find? (byTelemetryId telemetryId) with
  | none => db
  | some data =>
    let reasons := data.invalidity.filter (fun r => r.type != .ONLINE)
    let entry : InvalidityEntry :=
      { type := .ONLINE, valid := false, updated := now,
        details := data.name ++ " offline. Offline since " ++
          toString data.offlineSince ++ "." }
    let _unusedName := name
    if data.nodeRefs > 1 then
      let updated :=
        findOneAndUpdateBy (byTelemetryId telemetryId)
          (fun c => { c with nodeRefs := c.nodeRefs - 1,
                              invalidity := reasons ++ [entry] })
          db.candidates
      { db with candidates := updated }
    else
      let updated :=
        findOneAndUpdateBy (byTelemetryId telemetryId)
          (fun c => { c with offlineSince := now, onlineSince := 0,
                              nodeRefs := c.nodeRefs - 1,
                              invalidity := reasons ++ [entry] })
          db.candidates
      { db with candidates := updated }

/-- `reportBestBlock`: `findOne({telemetryId})`; absent → no-op. When the
document was previously offline, clear `offlineSince`, accumulate the
offline time, and replace the `ONLINE` entry with a valid one. The update
passes `telemetryId` directly as the filter; per the source's intent only
the find-by-telemetryId semantics is kept. -/
def reportBestBlock (db : Db) (telemetryId : Int) (now : Int) : Db :=
  match db.candidates.find? (byTelemetryId telemetryId) with
  | none => db
  | some data =>
    if data.offlineSince != 0 then
      let reasons := data.invalidity.filter (fun r => r.type != .ONLINE)
      let updated :=
        findOneAndUpdateBy (byTelemetryId telemetryId)
          (fun c => { c with offlineSince := 0, onlineSince := now,
                              offlineAccumulated :=
                                data.offlineAccumulated + (now - data.offlineSince),
                              invalidity := reasons ++ [onlineEntry now] })
          db.candidates
      { db with candidates := updated }
    else db

/-- The SS58 format `addCandidate` picks from the chain metadata:
`network == "Kusama" ? 2 : 0`. -/
def ss58Format (md : ChainMetadata) : Nat :=
  if md.name == "Kusama" then 2 else 0

/-- The update `addCandidate` applies when a document with the name already
exists: store the candidate-specific fields. -/
def configUpdate (c : Candidate) (stash : String) (kusamaStash : String)
    (skipSelfStake : Bool) (bio : String) : Candidate :=
  { c with stash := some stash, kusamaStash := some kusamaStash,
           skipSelfStake := skipSelfStake, bio := bio }

/-- `addCandidate`: reads `(await getChainMetadata()).name` (throwing when
the metadata singleton is absent, hence the `Option` result), canonicalizes
the stash with `keyring.encodeAddress(stash, ss58Format)` — the encoding is
passed in as `encode` — then either saves a new document or stores the
candidate-specific fields on the document with that name. -/
def addCandidate (encode : String → Nat → String) (db : Db) (name : String)
    (stash : String) (kusamaStash : String) (skipSelfStake : Bool)
    (bio : String) : Option Db :=
  match db.chainMetadata with
  | none => none
  | some md =>
    let stashEnc := encode stash (ss58Format md)
    match db.candidates.find? (byName name) with
    | none =>
      let fresh : Candidate :=
        { name := name, stash := some stashEnc, kusamaStash := some kusamaStash,
          skipSelfStake := skipSelfStake, bio := bio }
      some { db with candidates := db.candidates ++ [fresh] }
    | some _ =>
      let updated :=
        findOneAndUpdateBy (byName name)
          (fun c => configUpdate c stashEnc kusamaStash skipSelfStake bio)
          db.candidates
      some { db with candidates := updated }

/-- `pushFaultEvent`: no candidate → `false`; a fault event with the same
reason already recorded → `true` without writing; otherwise push
`{when, reason, prevRank}` and return `false`. -/
def pushFaultEvent (db : Db) (stash : String) (reason : String) (now : Int) : Db × Bool :=
  match db.candidates.find? (byStash stash) with
  | none => (db, false)
  | some record =>
    if record.faultEvents.any (fun fault => fault.reason == reason) then
      (db, true)
    else
      let updated :=
        findOneAndUpdateBy (byStash stash)
          (fun c => { c with faultEvents := c.faultEvents ++
            [{ when := now, reason := reason, prevRank := record.rank }] })
          db.candidates
      ({ db with candidates := updated }, false)

/-- `pushRankEvent`: no candidate → `false`; a rank event with the same
`startEra` already recorded → `false` without writing; otherwise push
`{when, startEra, activeEra}` and return `true`. -/
def pushRankEvent (db : Db) (stash : String) (startEra : Int) (activeEra : Int)
    (now : Int) : Db × Bool :=
  match db.candidates.find? (byStash stash) with
  | none => (db, false)
  | some record =>
    if record.rankEvents.any (fun rank => rank.startEra == startEra) then
      (db, false)
    else
      let updated :=
        findOneAndUpdateBy (byStash stash)
          (fun c => { c with rankEvents := c.rankEvents ++
            [{ when := now, startEra := startEra, activeEra := activeEra }] })
          db.candidates
      ({ db with candidates := updated }, true)

/-! ### Era points collections

`setEraPoints` / `setTotalEraPoints` / `eraPointsJob`, instrumented with a
count of the store write operations (`.save()` or an executed
`findOneAndUpdate`) each call performs. -/

structure ValidatorEraPoints where
  address : String
  eraPoints : Nat
deriving DecidableEq

structure EraPointsRow where
  era : Int
  address : String
  eraPoints : Nat
deriving DecidableEq

/-- A `TotalEraPoints` document. The writers in the source populate `era`,
`totalEraPoints`, `validatorsEraPoints`, `median`, `average`, `max` and
`min`; no code path ever assigns a field named `total`, so reading
`data.total` yields `undefined` — modelled by the `total` component, which
every writer leaves at `none`. `median` and `average` are `undefined` when
the validators list is empty. -/
structure TotalEraPointsRow where
  era : Int
  totalEraPoints : Nat
  validatorsEraPoints : List ValidatorEraPoints
  median : Option ℚ
  average : Option ℚ
  max : Option Nat
  min : Option Nat
  total : Option Nat
deriving DecidableEq

structure EraPointsDb where
  eraPoints : List EraPointsRow
  totalEraPoints : List TotalEraPointsRow
deriving DecidableEq

/-- JS loose equality between a possibly-`undefined` field and a number:
`undefined == n` is `false` for every number `n`. -/
def jsEqNum (field : Option Nat) (n : Nat) : Bool :=
  match field with
  | some m => m == n
  | none => false

/-- JS truthiness of a possibly-`undefined` numeric field: `undefined` and
`0` are falsy. -/
def jsTruthyNum (field : Option ℚ) : Bool :=
  match field with
  | some q => q != 0
  | none => false

/-- `Math.max(...points)`: the greatest element, `undefined`-like on an
empty spread (the source never hits that case with a populated chain). -/
def jsMathMax (points : List Nat) : Option Nat :=
  points.foldl (fun acc x =>
    match acc with
    | none => some x
    | some m => some (Nat.max m x)) none

/-- `Math.min(...points)`. -/
def jsMathMin (points : List Nat) : Option Nat :=
  points.foldl (fun acc x =>
    match acc with
    | none => some x
    | some m => some (Nat.min m x)) none

/-- `setEraPoints(era, points, address)`: `findOne({address, era})`; if the
row exists with the same value, return without writing; otherwise save a new
row or update the existing one. The second component counts the writes. -/
def setEraPoints (db : EraPointsDb) (era : Int) (points : Nat)
    (address : String) : EraPointsDb × Nat :=
  match db.eraPoints.find? (fun r => r.address == address && r.era == era) with
  | some data =>
    if data.eraPoints == points then (db, 0)
    else
      let updated :=
        findOneAndUpdateBy (fun r => r.address == address && r.era == era)
          (fun r => { r with eraPoints := points }) db.eraPoints
      ({ db with eraPoints := updated }, 1)
  | none =>
    ({ db with eraPoints :=
        db.eraPoints ++ [{ era := era, address := address, eraPoints := points }] }, 1)

/-- One step of the per-validator loop at the top of `setTotalEraPoints`. -/
def setEraPointsStep (era : Int) (acc : EraPointsDb × Nat)
    (v : ValidatorEraPoints) : EraPointsDb × Nat :=
  let r := setEraPoints acc.1 era v.eraPoints v.address
  (r.1, acc.2 + r.2)

/-- `setTotalEraPoints(era, total, validators)`: first try `setEraPoints`
for every validator; then `findOne({era})`; the early return fires only when
`data.total == total && data.median` — but the documents store the total
under `totalEraPoints` and never under `total`, so `data.total` is
`undefined` and the comparison is always false. Otherwise recompute
median / average / max / min over the validators' points and save or update
the per-era document. -/
def setTotalEraPoints (db : EraPointsDb) (era : Int) (total : Nat)
    (validators : List ValidatorEraPoints) : EraPointsDb × Nat :=
  let acc := validators.foldl (setEraPointsStep era) (db, 0)
  let db1 := acc.1
  let points : List Nat := validators.map (fun v => v.eraPoints)
  let row : TotalEraPointsRow :=
    { era := era, totalEraPoints := total, validatorsEraPoints := validators,
      median := getMedian (points.map (fun p => (p : ℚ))),
      average := getAverage (points.map (fun p => (p : ℚ))),
      max := jsMathMax points, min := jsMathMin points, total := none }
  match db1.totalEraPoints.find? (fun r => r.era == era) with
  | some data =>
    if jsEqNum data.total total && jsTruthyNum data.median then (db1, acc.2)
    else
      let updated :=
        findOneAndUpdateBy (fun r => r.era == era)
          (fun r => { r with totalEraPoints := row.totalEraPoints,
                              validatorsEraPoints := row.validatorsEraPoints,
                              median := row.median, average := row.average,
                              max := row.max, min := row.min })
          db1.totalEraPoints
      ({ db1 with totalEraPoints := updated }, acc.2 + 1)
  | none =>
    ({ db1 with totalEraPoints := db1.totalEraPoints ++ [row] }, acc.2 + 1)

/-- What `chaindata.getTotalEraPoints(i)` returns: `{era, total, validators}`. -/
structure ChainEraPoints where
  era : Int
  total : Nat
  validators : List ValidatorEraPoints
deriving DecidableEq

/-- One iteration of the backfill loop of `eraPointsJob`: read the stored
`TotalEraPoints` for era `i`; skip when it exists with
`totalEraPoints >= 70000` and a truthy `median`; otherwise fetch the era
from the chain and call `setTotalEraPoints`. -/
def eraPointsBackfillStep (chain : Int → ChainEraPoints) (acc : EraPointsDb × Nat)
    (i : Int) : EraPointsDb × Nat :=
  match acc.1.totalEraPoints.find? (fun r => r.era == i) with
  | some erapoints =>
    if erapoints.totalEraPoints ≥ 70000 && jsTruthyNum erapoints.median then acc
    else
      let fetched := chain i
      let r := setTotalEraPoints acc.1 fetched.era fetched.total fetched.validators
      (r.1, acc.2 + r.2)
  | none =>
    let fetched := chain i
    let r := setTotalEraPoints acc.1 fetched.era fetched.total fetched.validators
    (r.1, acc.2 + r.2)

/-- `eraPointsJob`: iterate the backfill loop over the active era's prior
eras and finally refresh the active era itself with an unconditional
`setTotalEraPoints`. The second component counts the store writes the run
performed. -/
def eraPointsJob (chain : Int → ChainEraPoints) (activeEra : Int)
    (db : EraPointsDb) : EraPointsDb × Nat :=
  let acc := (backfillEras activeEra).foldl (eraPointsBackfillStep chain) (db, 0)
  let fetched := chain activeEra
  let r := setTotalEraPoints acc.1 fetched.era fetched.total fetched.validators
  (r.1, acc.2 + r.2)

/-! ### Invariants and fixtures used by the statements -/

/-- The per-candidate invariant of the spec: for every type in the closed
invalidity set, the candidate's `invalidity` list holds at most one entry of
that type. -/
def invalidityCountOk (c : Candidate) : Prop :=
  ∀ t : InvalidityType, (c.invalidity.filter (fun r => r.type == t)).length ≤ 1

instance (c : Candidate) : Decidable (invalidityCountOk c) := by
  unfold invalidityCountOk
  infer_instance

/-- Every candidate in the store satisfies the at-most-one-entry-per-type
invariant. -/
def storeInvariant (db : Db) : Prop :=
  ∀ c ∈ db.candidates, invalidityCountOk c

instance (db : Db) : Decidable (storeInvariant db) := by
  unfold storeInvariant
  infer_instance

/-- The `IDENTITY` entry written by `setIdentityInvalidity` for a found
candidate `record`. -/
def identityEntry (record : Candidate) (v : Bool) (d : Option String) (now : Int) :
    InvalidityEntry :=
  { type := .IDENTITY, valid := v, updated := now,
    details := if v then ""
               else jsStringOr d (record.name ++ " has not properly set their identity") }

/-- A chain fixture for the era-points claims: eras 0 and 1 carry 70000
total points split between two validators, the active era 2 carries 60000. -/
def chainFixture : Int → ChainEraPoints := fun i =>
  if i == 0 then
    { era := 0, total := 70000, validators := [⟨"a", 40000⟩, ⟨"b", 30000⟩] }
  else if i == 1 then
    { era := 1, total := 70000, validators := [⟨"a", 40000⟩, ⟨"b", 30000⟩] }
  else
    { era := i, total := 60000, validators := [⟨"a", 30000⟩, ⟨"b", 30000⟩] }

/-- A fully populated `TotalEraPoints` row for the fixture: total at the
70000 threshold and a set median. -/
def populatedRow (era : Int) : TotalEraPointsRow :=
  { era := era, totalEraPoints := 70000,
    validatorsEraPoints := [⟨"a", 40000⟩, ⟨"b", 30000⟩],
    median := some 35000, average := some 35000,
    max := some 40000, min := some 30000, total := none }

/-- A store whose whole backfill window for active era 2 (eras 1 and 0) is
fully populated and whose per-`(era, address)` rows match the chain. -/
def populatedDb : EraPointsDb :=
  { eraPoints := [⟨0, "a", 40000⟩, ⟨0, "b", 30000⟩, ⟨1, "a", 40000⟩, ⟨1, "b", 30000⟩],
    totalEraPoints := [populatedRow 0, populatedRow 1] }

/-- The store after a first `eraPointsJob` run over `populatedDb`. -/
def firstRunDb : EraPointsDb := (eraPointsJob chainFixture 2 populatedDb).1

/-- A concrete candidate used to exercise the invalidity operations: it is
seeded with one `ONLINE: true` and one `IDENTITY: false` entry. -/
def fixtureCandidate : Candidate :=
  { name := "node1", stash := some "addr",
    invalidity :=
      [{ type := .ONLINE, valid := true, updated := 0, details := "" },
       { type := .IDENTITY, valid := false, updated := 0, details := "old" }] }

/-- A concrete store holding `fixtureCandidate` and Kusama chain metadata. -/
def fixtureDb : Db :=
  { candidates := [fixtureCandidate],
    chainMetadata := some { name := "Kusama", decimals := 12 } }

/-- Concrete telemetry node details. -/
def fixtureDetails : NodeDetails :=
  { name := "node2", client := "client", version := "v1", networkId := none }

/-- A candidate that already carries a fault event with reason `"dup"` and a
rank event with `startEra = 10`. -/
def dupCandidate : Candidate :=
  { name := "node3", stash := some "dupaddr", rank := 5,
    faultEvents := [{ when := 1, reason := "dup", prevRank := 4 }],
    rankEvents := [{ when := 1, startEra := 10, activeEra := 12 }] }

/-- A store holding `dupCandidate`. -/
def dupDb : Db := { candidates := [dupCandidate], chainMetadata := none }

/-- A candidate with no recorded fault or rank events. -/
def freshCandidate : Candidate :=
  { name := "node4", stash := some "dupaddr", rank := 7 }

/-- A store holding `freshCandidate`. -/
def freshDb : Db := { candidates := [freshCandidate], chainMetadata := none }

/-! ### Helper lemmas about the embedded store primitives -/

theorem mem_findOneAndUpdateBy {α : Type} {p : α → Bool} {f : α → α} :
    ∀ {l : List α} {c : α}, c ∈ findOneAndUpdateBy p f l →
      c ∈ l ∨ ∃ a, a ∈ l ∧ c = f a := by
  intro l
  induction l with
  | nil => intro c hc; simp [findOneAndUpdateBy] at hc
  | cons x xs ih =>
    intro c hc
    rw [findOneAndUpdateBy] at hc
    by_cases hx : p x
    · rw [if_pos hx] at hc
      rcases List.mem_cons.mp hc with h1 | h1
      · exact Or.inr ⟨x, List.mem_cons_self x xs, h1⟩
      · exact Or.inl (List.mem_cons_of_mem _ h1)
    · rw [if_neg hx] at hc
      rcases List.mem_cons.mp hc with h1 | h1
      · exact Or.inl (h1 ▸ List.mem_cons_self x xs)
      · rcases ih h1 with h2 | ⟨a, ha, h3⟩
        · exact Or.inl (List.mem_cons_of_mem _ h2)
        · exact Or.inr ⟨a, List.mem_cons_of_mem _ ha, h3⟩

theorem find?_findOneAndUpdateBy {α : Type} {p : α → Bool} {f : α → α} :
    ∀ {l : List α} {a : α}, l.find? p = some a → p (f a) = true →
      (findOneAndUpdateBy p f l).find? p = some (f a) := by
  intro l
  induction l with
  | nil => intro a ha _; simp at ha
  | cons x xs ih =>
    intro a ha hfa
    by_cases hx : p x
    · rw [List.find?_cons_of_pos _ hx] at ha
      cases ha
      rw [findOneAndUpdateBy, if_pos hx]
      exact List.find?_cons_of_pos _ hfa
    · rw [List.find?_cons_of_neg _ hx] at ha
      rw [findOneAndUpdateBy, if_neg hx, List.find?_cons_of_neg _ hx]
      exact ih ha hfa

theorem find?_append_of_none {α : Type} {p : α → Bool} {l₁ l₂ : List α}
    (h : l₁.find? p = none) : (l₁ ++ l₂).find? p = l₂.find? p := by
  induction l₁ with
  | nil => simp
  | cons x xs ih =>
    by_cases hx : p x
    · rw [List.find?_cons_of_pos _ hx] at h
      exact absurd h (by simp)
    · rw [List.find?_cons_of_neg _ hx] at h
      rw [List.cons_append, List.find?_cons_of_neg _ hx]
      exact ih h

theorem findOneAndUpdateBy_append_singleton {α : Type} {p : α → Bool} {f : α → α} :
    ∀ {l : List α}, l.find? p = none → ∀ x : α, p x = true →
      findOneAndUpdateBy p f (l ++ [x]) = l ++ [f x] := by
  intro l
  induction l with
  | nil => intro _ x hx; simp [findOneAndUpdateBy, hx]
  | cons y ys ih =>
    intro h x hx
    by_cases hy : p y
    · rw [List.find?_cons_of_pos _ hy] at h
      exact absurd h (by simp)
    · rw [List.find?_cons_of_neg _ hy] at h
      rw [List.cons_append, findOneAndUpdateBy, if_neg hy, ih h x hx, List.cons_append]

/-! ### C1 — non-reentrancy of cron ticks -/

/-- C1 counterexample: the execution job is a registered periodic job whose
callback has no latch; a tick that arrives while one body is already in
flight (`active = 1`) starts a second body rather than being dropped. -/
theorem executionTick_starts_second_body :
    executionTickStart { running := false, active := 1 } =
      { running := false, active := 2 } ∧
    (executionTickStart (executionTickStart { running := false, active := 0 })).active = 2 := by
  decide

/-- C1 (amended): a tick arriving at one of the ten latched jobs while its
latch is held leaves the state exactly unchanged — the tick is dropped, not
queued, and no second body starts; the execution job's tick, by contrast,
always starts one more body. -/
theorem latchedTick_drops_while_running (s : JobRun) :
    (s.running = true → latchedTickStart s = s) ∧
    (executionTickStart s).active = s.active + 1 := by
  constructor
  · intro h
    simp [latchedTickStart, h]
  · rfl

/-- Witness for the latched half of the amended C1 at a concrete state with
a body in flight. -/
theorem latchedTick_drops_while_running_witness :
    latchedTickStart { running := true, active := 1 } =
      { running := true, active := 1 } ∧
    (executionTickStart { running := true, active := 1 }).active = 2 :=
  ⟨(latchedTick_drops_while_running { running := true, active := 1 }).1 rfl,
   (latchedTick_drops_while_running { running := true, active := 1 }).2⟩

/-! ### C3 — latch release on body failure -/

/-- C3: in the validity-style latched callbacks a throwing body skips the
trailing `running = false`, so the latch stays set and every subsequent tick
is dropped — the store of that job is frozen from then on; only the
era-points callback, whose body sits in a `try`/`catch`, releases its latch
on a throw and accepts the next tick. -/
theorem validity_latch_not_released_on_throw :
    (validityTickRun { running := false, bodiesRun := 0 } true).running = true ∧
    (∀ b, validityTickRun (validityTickRun { running := false, bodiesRun := 0 } true) b =
      validityTickRun { running := false, bodiesRun := 0 } true) ∧
    (eraPointsTickRun { running := false, bodiesRun := 0 } true).running = false ∧
    (eraPointsTickRun (eraPointsTickRun { running := false, bodiesRun := 0 } true)
      false).bodiesRun = 2 := by
  refine ⟨rfl, ?_, rfl, rfl⟩
  intro b
  cases b <;> rfl

/-! ### C6 — the backfill loop's era range -/

theorem mem_backfillAux (activeEra : Int) :
    ∀ (fuel : Nat) (i j : Int),
      j ∈ backfillAux activeEra fuel i ↔
        (activeEra - 84 < j ∧ 0 ≤ j ∧ j ≤ i ∧ i - j < fuel) := by
  intro fuel
  induction fuel with
  | zero =>
    intro i j
    simp only [backfillAux, List.not_mem_nil, false_iff]
    omega
  | succ n ih =>
    intro i j
    rw [backfillAux]
    by_cases hcond : i > activeEra - 84 ∧ i ≥ 0
    · rw [if_pos hcond, List.mem_cons, ih (i - 1) j]
      omega
    · rw [if_neg hcond]
      simp only [List.not_mem_nil, false_iff]
      omega

/-- C6 (amended): the backfill loop of `eraPointsJob` visits exactly the
eras strictly between `activeEra − 84` and `activeEra`, clipped at zero —
i.e. the prior 83 eras down to `max (activeEra − 83) 0`; in particular it
never reads a negative era and, when `activeEra < 84`, it runs down to
era 0. -/
theorem backfillEras_range (activeEra : Int) (j : Int) :
    j ∈ backfillEras activeEra ↔
      (activeEra - 84 < j ∧ 0 ≤ j ∧ j ≤ activeEra - 1) := by
  unfold backfillEras
  rw [mem_backfillAux]
  omega

/-- C6 counterexample: for `activeEra = 85` the claimed range — the prior 84
eras clipped at zero — contains era 1 = 85 − 84, but the loop stops at era 2
and never visits era 1. -/
theorem backfillEras_counterexample :
    (0 : Int) ≤ 85 - 84 ∧ (85 : Int) - 84 ≤ 85 - 1 ∧
      ((85 : Int) - 84) ∉ backfillEras 85 := by
  decide

/-! ### C8 — delayed-transaction duplicates -/

/-- C8 counterexample: two identical `addDelayedTx` calls leave two rows for
`(100, "C")`, not one, and the store differs from the single-call store. -/
theorem addDelayedTx_duplicate_counterexample :
    (addDelayedTx (addDelayedTx [] 100 "C" ["T"] "H") 100 "C" ["T"] "H").length = 2 ∧
    ((addDelayedTx (addDelayedTx [] 100 "C" ["T"] "H") 100 "C" ["T"] "H").filter
        (fun r => r.number == 100 && r.controller == "C")).length = 2 ∧
    addDelayedTx (addDelayedTx [] 100 "C" ["T"] "H") 100 "C" ["T"] "H" ≠
      addDelayedTx [] 100 "C" ["T"] "H" := by
  decide

/-- C8 (amended): `addDelayedTx` performs an unconditional insert; calling
it twice with the same arguments appends two identical rows, so the number
of rows matching `(number, controller)` grows by two — no uniqueness or
idempotence is enforced by the operation. -/
theorem addDelayedTx_always_inserts (s : List DelayedTxRow) (n : Int) (c : String)
    (t : List String) (h : String) :
    addDelayedTx (addDelayedTx s n c t h) n c t h =
      s ++ [⟨n, c, t, h⟩, ⟨n, c, t, h⟩] ∧
    ((addDelayedTx (addDelayedTx s n c t h) n c t h).filter
        (fun r => r.number == n && r.controller == c)).length =
      (s.filter (fun r => r.number == n && r.controller == c)).length + 2 := by
  constructor
  · simp [addDelayedTx]
  · simp [addDelayedTx, List.filter_append]

/-! ### C7 — the median computation -/

/-- C7: `getMedian` is `none` on the empty array; on a non-empty list it
returns, for any ascending sorted reordering `s` of the input, the middle
element of `s` when the length is odd and the mean of the two middle
elements when the length is even; in particular `[1,3,5,7]` yields `4` and
`[2,4,9]` yields `4`. -/
theorem getMedian_spec :
    getMedian [] = none ∧
    getMedian [1, 3, 5, 7] = some 4 ∧
    getMedian [2, 4, 9] = some 4 ∧
    ∀ (l s : List ℚ), l ≠ [] → List.Perm s l → List.Sorted (· ≤ ·) s →
      getMedian l =
        if l.length % 2 = 0 then
          some ((s.getD (l.length / 2 - 1) 0 + s.getD (l.length / 2) 0) / 2)
        else some (s.getD ((l.length - 1) / 2) 0) := by
  refine ⟨rfl, ?_, ?_, ?_⟩
  · norm_num [getMedian, List.insertionSort, List.orderedInsert]
  · norm_num [getMedian, List.insertionSort, List.orderedInsert]
  · intro l s hne hperm hsorted
    have hsort : List.insertionSort (fun a b : ℚ => a ≤ b) l = s :=
      @List.eq_of_perm_of_sorted ℚ (fun a b : ℚ => a ≤ b) _ _ _
        ((List.perm_insertionSort _ l).trans hperm.symm)
        (List.sorted_insertionSort _ l) hsorted
    have hlen : l.length ≥ 1 := by
      cases l with
      | nil => exact absurd rfl hne
      | cons a as => simp
    have hlens : (List.insertionSort (fun a b : ℚ => a ≤ b) l).length = l.length :=
      (List.perm_insertionSort _ l).length_eq
    simp only [getMedian]
    rw [if_pos hlen, hsort]
    rw [hsort] at hlens
    rw [hlens]

/-- Witness for C7's universally quantified part at the concrete input
`[2, 4, 9]`, whose ascending reordering is itself. -/
theorem getMedian_spec_witness :
    getMedian [2, 4, 9] =
      if ([2, 4, 9] : List ℚ).length % 2 = 0 then
        some ((([2, 4, 9] : List ℚ).getD (([2, 4, 9] : List ℚ).length / 2 - 1) 0 +
               ([2, 4, 9] : List ℚ).getD (([2, 4, 9] : List ℚ).length / 2) 0) / 2)
      else some (([2, 4, 9] : List ℚ).getD ((([2, 4, 9] : List ℚ).length - 1) / 2) 0) :=
  getMedian_spec.2.2.2 [2, 4, 9] [2, 4, 9] (by simp) (List.Perm.refl _)
    (by norm_num [List.sorted_cons])

/-! ### C2 — the at-most-one-entry-per-type invariant -/

theorem invalidity_filter_append_count {entries : List InvalidityEntry}
    (h : ∀ t : InvalidityType, (entries.filter (fun r => r.type == t)).length ≤ 1)
    (t0 : InvalidityType) (e : InvalidityEntry) (he : e.type = t0) (t : InvalidityType) :
    (((entries.filter (fun r => r.type != t0)) ++ [e]).filter
      (fun r => r.type == t)).length ≤ 1 := by
  rw [List.filter_append, List.length_append]
  by_cases ht : t = t0
  · subst ht
    have h1 : (entries.filter (fun r => r.type != t)).filter (fun r => r.type == t) = [] := by
      rw [List.filter_filter]
      apply List.filter_eq_nil_iff.mpr
      intro a _
      cases hat : a.type == t <;> simp [bne, hat]
    rw [h1]
    simp [List.filter, he]
  · have h2 : [e].filter (fun r => r.type == t) = [] := by
      have : (e.type == t) = false := by
        rw [he]
        exact beq_eq_false_iff_ne.mpr (fun hh => ht hh.symm)
      simp [List.filter, this]
    have h3 : ((entries.filter (fun r => r.type != t0)).filter
        (fun r => r.type == t)).length ≤ (entries.filter (fun r => r.type == t)).length :=
      ((List.filter_sublist entries).filter (fun r => r.type == t)).length_le
    rw [h2]
    simp only [List.length_nil, Nat.add_zero]
    exact le_trans h3 (h t)

theorem storeInvariant_update {l : List Candidate} {p : Candidate → Bool}
    {f : Candidate → Candidate}
    (h : ∀ c ∈ l, invalidityCountOk c)
    (hf : ∀ a ∈ l, invalidityCountOk (f a)) :
    ∀ c ∈ findOneAndUpdateBy p f l, invalidityCountOk c := by
  intro c hc
  rcases mem_findOneAndUpdateBy hc with h1 | ⟨a, ha, h2⟩
  · exact h c h1
  · exact h2 ▸ hf a ha

theorem storeInvariant_ite {b : Prop} [Decidable b] {l1 l2 : List Candidate}
    (h1 : ∀ c ∈ l1, invalidityCountOk c) (h2 : ∀ c ∈ l2, invalidityCountOk c) :
    ∀ c ∈ (if b then l1 else l2), invalidityCountOk c := by
  by_cases hb : b
  · rw [if_pos hb]; exact h1
  · rw [if_neg hb]; exact h2

theorem storeInvariant_upsertInvalidity (db : Db) (address : String)
    (t : InvalidityType) (v : Bool) (now : Int) (msg : Candidate → String)
    (h : storeInvariant db) :
    storeInvariant (upsertInvalidity db address t v now msg) := by
  unfold upsertInvalidity
  split
  · exact h
  · rename_i data hfind
    have hdata : invalidityCountOk data := h data (List.mem_of_find?_eq_some hfind)
    intro c hc
    refine storeInvariant_update h ?_ c hc
    intro a _ t'
    exact invalidity_filter_append_count hdata t _ rfl t'

theorem storeInvariant_reportOnline (db : Db) (tid : Int) (details : NodeDetails)
    (now : Int) (h : storeInvariant db) :
    storeInvariant (reportOnline db tid details now) := by
  unfold reportOnline
  split
  · intro c hc
    rcases List.mem_append.mp hc with h1 | h1
    · exact h c h1
    · have hceq : c = telemetryCandidate tid details now := List.mem_singleton.mp h1
      subst hceq
      intro t
      simp [telemetryCandidate]
  · rename_i data hfind
    have hdata : invalidityCountOk data := h data (List.mem_of_find?_eq_some hfind)
    intro c hc
    refine storeInvariant_ite ?_ ?_ c hc
    · refine storeInvariant_update ?_ ?_
      · refine storeInvariant_update ?_ ?_
        · refine storeInvariant_ite ?_ h
          refine storeInvariant_update h ?_
          intro a _ t'
          exact invalidity_filter_append_count hdata InvalidityType.ONLINE _ rfl t'
        · intro a _ t'
          exact invalidity_filter_append_count hdata InvalidityType.ONLINE _ rfl t'
      · intro a ha
        have key : invalidityCountOk a := by
          refine storeInvariant_update ?_ ?_ a ha
          · refine storeInvariant_ite ?_ h
            refine storeInvariant_update h ?_
            intro a' _ t'
            exact invalidity_filter_append_count hdata InvalidityType.ONLINE _ rfl t'
          · intro a' _ t'
            exact invalidity_filter_append_count hdata InvalidityType.ONLINE _ rfl t'
        exact key
    · refine storeInvariant_update ?_ ?_
      · refine storeInvariant_ite ?_ h
        refine storeInvariant_update h ?_
        intro a _ t'
        exact invalidity_filter_append_count hdata InvalidityType.ONLINE _ rfl t'
      · intro a _ t'
        exact invalidity_filter_append_count hdata InvalidityType.ONLINE _ rfl t'

theorem storeInvariant_reportOffline (db : Db) (tid : Int) (nm : String)
    (now : Int) (h : storeInvariant db) :
    storeInvariant (reportOffline db tid nm now) := by
  unfold reportOffline
  split
  · exact h
  · rename_i data hfind
    have hdata : invalidityCountOk data := h data (List.mem_of_find?_eq_some hfind)
    by_cases hn : data.nodeRefs > 1
    · rw [if_pos hn]
      intro c hc
      refine storeInvariant_update h ?_ c hc
      intro a _ t'
      exact invalidity_filter_append_count hdata InvalidityType.ONLINE _ rfl t'
    · rw [if_neg hn]
      intro c hc
      refine storeInvariant_update h ?_ c hc
      intro a _ t'
      exact invalidity_filter_append_count hdata InvalidityType.ONLINE _ rfl t'

theorem storeInvariant_reportBestBlock (db : Db) (tid : Int) (now : Int)
    (h : storeInvariant db) : storeInvariant (reportBestBlock db tid now) := by
  unfold reportBestBlock
  split
  · exact h
  · rename_i data hfind
    have hdata : invalidityCountOk data := h data (List.mem_of_find?_eq_some hfind)
    by_cases ho : (data.offlineSince != 0) = true
    · rw [if_pos ho]
      intro c hc
      refine storeInvariant_update h ?_ c hc
      intro a _ t'
      exact invalidity_filter_append_count hdata InvalidityType.ONLINE _ rfl t'
    · rw [if_neg ho]
      exact h

/-- C2: every store operation that rewrites a candidate's `invalidity` list
— each of the twelve type-specific invalidity setters, `reportOnline`,
`reportOffline` and `reportBestBlock` — preserves the invariant that every
candidate holds at most one invalidity entry per type. -/
theorem invalidity_invariant_preserved (db : Db) (addr : String) (v : Bool)
    (d : Option String) (now : Int) (tid : Int) (details : NodeDetails) (nm : String)
    (h : storeInvariant db) :
    storeInvariant (setOnlineValidity db addr v now) ∧
    storeInvariant (setValidateIntentionValidity db addr v now) ∧
    storeInvariant (setLatestClientReleaseValidity db addr v now) ∧
    storeInvariant (setConnectionTimeInvalidity db addr v now) ∧
    storeInvariant (setIdentityInvalidity db addr v d now) ∧
    storeInvariant (setOfflineAccumulatedInvalidity db addr v now) ∧
    storeInvariant (setRewardDestinationInvalidity db addr v now) ∧
    storeInvariant (setCommissionInvalidity db addr v d now) ∧
    storeInvariant (setSelfStakeInvalidity db addr v d now) ∧
    storeInvariant (setUnclaimedInvalidity db addr v d now) ∧
    storeInvariant (setBlockedInvalidity db addr v d now) ∧
    storeInvariant (setKusamaRankInvalidity db addr v d now) ∧
    storeInvariant (reportOnline db tid details now) ∧
    storeInvariant (reportOffline db tid nm now) ∧
    storeInvariant (reportBestBlock db tid now) :=
  ⟨storeInvariant_upsertInvalidity db addr _ v now _ h,
   storeInvariant_upsertInvalidity db addr _ v now _ h,
   storeInvariant_upsertInvalidity db addr _ v now _ h,
   storeInvariant_upsertInvalidity db addr _ v now _ h,
   storeInvariant_upsertInvalidity db addr _ v now _ h,
   storeInvariant_upsertInvalidity db addr _ v now _ h,
   storeInvariant_upsertInvalidity db addr _ v now _ h,
   storeInvariant_upsertInvalidity db addr _ v now _ h,
   storeInvariant_upsertInvalidity db addr _ v now _ h,
   storeInvariant_upsertInvalidity db addr _ v now _ h,
   storeInvariant_upsertInvalidity db addr _ v now _ h,
   storeInvariant_upsertInvalidity db addr _ v now _ h,
   storeInvariant_reportOnline db tid details now h,
   storeInvariant_reportOffline db tid nm now h,
   storeInvariant_reportBestBlock db tid now h⟩

/-- Witness for C2 at a concrete store satisfying the invariant. -/
theorem invalidity_invariant_preserved_witness :
    storeInvariant (setOnlineValidity fixtureDb "addr" true 7) ∧
    storeInvariant (setValidateIntentionValidity fixtureDb "addr" true 7) ∧
    storeInvariant (setLatestClientReleaseValidity fixtureDb "addr" true 7) ∧
    storeInvariant (setConnectionTimeInvalidity fixtureDb "addr" true 7) ∧
    storeInvariant (setIdentityInvalidity fixtureDb "addr" true none 7) ∧
    storeInvariant (setOfflineAccumulatedInvalidity fixtureDb "addr" true 7) ∧
    storeInvariant (setRewardDestinationInvalidity fixtureDb "addr" true 7) ∧
    storeInvariant (setCommissionInvalidity fixtureDb "addr" true none 7) ∧
    storeInvariant (setSelfStakeInvalidity fixtureDb "addr" true none 7) ∧
    storeInvariant (setUnclaimedInvalidity fixtureDb "addr" true none 7) ∧
    storeInvariant (setBlockedInvalidity fixtureDb "addr" true none 7) ∧
    storeInvariant (setKusamaRankInvalidity fixtureDb "addr" true none 7) ∧
    storeInvariant (reportOnline fixtureDb 9 fixtureDetails 7) ∧
    storeInvariant (reportOffline fixtureDb 9 "node1" 7) ∧
    storeInvariant (reportBestBlock fixtureDb 9 7) :=
  invalidity_invariant_preserved fixtureDb "addr" true none 7 9 fixtureDetails "node1"
    (by decide)

/-! ### C5 — `setIdentityInvalidity` -/

/-- C5: when a candidate exists under stash `addr`, `setIdentityInvalidity`
rewrites exactly that candidate's invalidity list to the non-IDENTITY
entries followed by one fresh IDENTITY entry whose `valid` is the given
flag; the rewritten list holds exactly one IDENTITY entry, and for every
other type its entries are exactly those of the old list. -/
theorem setIdentityInvalidity_spec (db : Db) (addr : String) (v : Bool)
    (d : Option String) (now : Int) (record : Candidate) (t : InvalidityType)
    (hfind : db.candidates.find? (byStash addr) = some record)
    (ht : t ≠ InvalidityType.IDENTITY) :
    (setIdentityInvalidity db addr v d now).candidates.find? (byStash addr) =
      some { record with invalidity :=
        record.invalidity.filter (fun r => r.type != InvalidityType.IDENTITY) ++
          [identityEntry record v d now] } ∧
    ((record.invalidity.filter (fun r => r.type != InvalidityType.IDENTITY) ++
        [identityEntry record v d now]).filter
      (fun r => r.type == InvalidityType.IDENTITY)) = [identityEntry record v d now] ∧
    (identityEntry record v d now).valid = v ∧
    ((record.invalidity.filter (fun r => r.type != InvalidityType.IDENTITY) ++
        [identityEntry record v d now]).filter (fun r => r.type == t)) =
      record.invalidity.filter (fun r => r.type == t) := by
  refine ⟨?_, ?_, rfl, ?_⟩
  · unfold setIdentityInvalidity upsertInvalidity
    rw [hfind]
    show (findOneAndUpdateBy (byStash addr) _ db.candidates).find? (byStash addr) = _
    refine find?_findOneAndUpdateBy hfind ?_
    exact show byStash addr record = true from List.find?_some hfind
  · rw [List.filter_append]
    have h1 : (record.invalidity.filter (fun r => r.type != InvalidityType.IDENTITY)).filter
        (fun r => r.type == InvalidityType.IDENTITY) = [] := by
      rw [List.filter_filter]
      apply List.filter_eq_nil_iff.mpr
      intro a _
      cases hat : a.type == InvalidityType.IDENTITY <;> simp [bne, hat]
    rw [h1]
    simp [List.filter, identityEntry]
  · rw [List.filter_append]
    have h2 : [identityEntry record v d now].filter (fun r => r.type == t) = [] := by
      have hne : ((identityEntry record v d now).type == t) = false :=
        beq_eq_false_iff_ne.mpr (fun hh => ht hh.symm)
      simp [List.filter, hne]
    rw [h2, List.append_nil, List.filter_filter]
    apply List.filter_congr
    intro a _
    cases hat : a.type == t
    · simp [hat]
    · have haty : a.type = t := eq_of_beq hat
      have hne2 : (a.type != InvalidityType.IDENTITY) = true := by
        rw [bne, haty]
        simp only [Bool.not_eq_true']
        exact beq_eq_false_iff_ne.mpr ht
      simp [hat, hne2]

/-- Witness for C5 at the spec's concrete scenario: a candidate seeded with
`ONLINE: true` and `IDENTITY: false`, then `setIdentityInvalidity(addr, true)`. -/
theorem setIdentityInvalidity_spec_witness :
    (setIdentityInvalidity fixtureDb "addr" true none 7).candidates.find? (byStash "addr") =
      some { fixtureCandidate with invalidity :=
        fixtureCandidate.invalidity.filter (fun r => r.type != InvalidityType.IDENTITY) ++
          [identityEntry fixtureCandidate true none 7] } ∧
    ((fixtureCandidate.invalidity.filter (fun r => r.type != InvalidityType.IDENTITY) ++
        [identityEntry fixtureCandidate true none 7]).filter
      (fun r => r.type == InvalidityType.IDENTITY)) =
        [identityEntry fixtureCandidate true none 7] ∧
    (identityEntry fixtureCandidate true none 7).valid = true ∧
    ((fixtureCandidate.invalidity.filter (fun r => r.type != InvalidityType.IDENTITY) ++
        [identityEntry fixtureCandidate true none 7]).filter
      (fun r => r.type == InvalidityType.ONLINE)) =
      fixtureCandidate.invalidity.filter (fun r => r.type == InvalidityType.ONLINE) :=
  setIdentityInvalidity_spec fixtureDb "addr" true none 7 fixtureCandidate
    InvalidityType.ONLINE (by decide) (by decide)

/-! ### C9 — the return conventions of `pushFaultEvent` and `pushRankEvent` -/

/-- C9: over a store `db1` with no candidate under the stash, a store `db2`
whose candidate already has a fault event with the given reason and a rank
event with the given start era, and a store `db3` whose candidate has
neither: `pushFaultEvent` returns `false` without writing on `db1`, `true`
without writing on the duplicate, and `false` after appending the new event;
`pushRankEvent` uses the opposite convention — `false` on the duplicate and
`true` after appending (and `false` when no candidate exists). -/
theorem pushEvent_return_conventions (db1 db2 db3 : Db) (stash reason : String)
    (startEra activeEra now : Int) (r2 r3 : Candidate)
    (h1 : db1.candidates.find? (byStash stash) = none)
    (h2 : db2.candidates.find? (byStash stash) = some r2)
    (h2f : r2.faultEvents.any (fun fault => fault.reason == reason) = true)
    (h2r : r2.rankEvents.any (fun rank => rank.startEra == startEra) = true)
    (h3 : db3.candidates.find? (byStash stash) = some r3)
    (h3f : r3.faultEvents.any (fun fault => fault.reason == reason) = false)
    (h3r : r3.rankEvents.any (fun rank => rank.startEra == startEra) = false) :
    pushFaultEvent db1 stash reason now = (db1, false) ∧
    pushRankEvent db1 stash startEra activeEra now = (db1, false) ∧
    pushFaultEvent db2 stash reason now = (db2, true) ∧
    pushRankEvent db2 stash startEra activeEra now = (db2, false) ∧
    (pushFaultEvent db3 stash reason now).2 = false ∧
    (pushFaultEvent db3 stash reason now).1.candidates.find? (byStash stash) =
      some { r3 with faultEvents := r3.faultEvents ++
        [{ when := now, reason := reason, prevRank := r3.rank }] } ∧
    (pushRankEvent db3 stash startEra activeEra now).2 = true ∧
    (pushRankEvent db3 stash startEra activeEra now).1.candidates.find? (byStash stash) =
      some { r3 with rankEvents := r3.rankEvents ++
        [{ when := now, startEra := startEra, activeEra := activeEra }] } := by
  refine ⟨?_, ?_, ?_, ?_, ?_, ?_, ?_, ?_⟩
  · unfold pushFaultEvent
    rw [h1]
  · unfold pushRankEvent
    rw [h1]
  · unfold pushFaultEvent
    rw [h2]
    simp [h2f]
  · unfold pushRankEvent
    rw [h2]
    simp [h2r]
  · unfold pushFaultEvent
    rw [h3]
    simp [h3f]
  · unfold pushFaultEvent
    rw [h3]
    simp only [h3f, Bool.false_eq_true, if_false]
    show (findOneAndUpdateBy (byStash stash) _ db3.candidates).find? (byStash stash) = _
    refine find?_findOneAndUpdateBy h3 ?_
    exact show byStash stash r3 = true from List.find?_some h3
  · unfold pushRankEvent
    rw [h3]
    simp [h3r]
  · unfold pushRankEvent
    rw [h3]
    simp only [h3r, Bool.false_eq_true, if_false]
    show (findOneAndUpdateBy (byStash stash) _ db3.candidates).find? (byStash stash) = _
    refine find?_findOneAndUpdateBy h3 ?_
    exact show byStash stash r3 = true from List.find?_some h3

/-- Witness for C9 over the empty store, the duplicate-event store and the
fresh store. -/
theorem pushEvent_return_conventions_witness :
    pushFaultEvent { candidates := [], chainMetadata := none } "dupaddr" "dup" 9 =
      ({ candidates := [], chainMetadata := none }, false) ∧
    pushRankEvent { candidates := [], chainMetadata := none } "dupaddr" 10 12 9 =
      ({ candidates := [], chainMetadata := none }, false) ∧
    pushFaultEvent dupDb "dupaddr" "dup" 9 = (dupDb, true) ∧
    pushRankEvent dupDb "dupaddr" 10 12 9 = (dupDb, false) ∧
    (pushFaultEvent freshDb "dupaddr" "dup" 9).2 = false ∧
    (pushFaultEvent freshDb "dupaddr" "dup" 9).1.candidates.find? (byStash "dupaddr") =
      some { freshCandidate with faultEvents := freshCandidate.faultEvents ++
        [{ when := 9, reason := "dup", prevRank := freshCandidate.rank }] } ∧
    (pushRankEvent freshDb "dupaddr" 10 12 9).2 = true ∧
    (pushRankEvent freshDb "dupaddr" 10 12 9).1.candidates.find? (byStash "dupaddr") =
      some { freshCandidate with rankEvents := freshCandidate.rankEvents ++
        [{ when := 9, startEra := 10, activeEra := 12 }] } :=
  pushEvent_return_conventions { candidates := [], chainMetadata := none } dupDb freshDb
    "dupaddr" "dup" 10 12 9 dupCandidate freshCandidate
    (by decide) (by decide) (by decide) (by decide) (by decide) (by decide) (by decide)

/-! ### C10 — telemetry-created candidates are invisible to `allCandidates` -/

/-- C10: when no candidate document carries the telemetry name,
`reportOnline` appends a document with no `stash` field; `allCandidates`
filters on an existing `stash`, so the result of `allCandidates` is
unchanged — the telemetry-created document is invisible to it (and hence to
every job iterating `allCandidates`) — until `addCandidate` stores a stash
on the document with that name, after which the document shows up in
`allCandidates`. -/
theorem telemetry_candidate_hidden (db : Db) (tid : Int) (details : NodeDetails)
    (now : Int) (enc : String → Nat → String) (stashArg ks : String) (ssk : Bool)
    (bio : String) (md : ChainMetadata)
    (hname : db.candidates.find? (byName details.name) = none)
    (hmd : db.chainMetadata = some md) :
    (telemetryCandidate tid details now).stash = none ∧
    (reportOnline db tid details now).candidates =
      db.candidates ++ [telemetryCandidate tid details now] ∧
    allCandidates (reportOnline db tid details now) = allCandidates db ∧
    addCandidate enc (reportOnline db tid details now) details.name stashArg ks ssk bio =
      some { candidates := db.candidates ++
               [configUpdate (telemetryCandidate tid details now)
                 (enc stashArg (ss58Format md)) ks ssk bio],
             chainMetadata := some md } ∧
    configUpdate (telemetryCandidate tid details now)
        (enc stashArg (ss58Format md)) ks ssk bio ∈
      allCandidates { candidates := db.candidates ++
                        [configUpdate (telemetryCandidate tid details now)
                          (enc stashArg (ss58Format md)) ks ssk bio],
                      chainMetadata := some md } := by
  have hro : reportOnline db tid details now =
      { db with candidates := db.candidates ++ [telemetryCandidate tid details now] } := by
    unfold reportOnline
    rw [hname]
  refine ⟨rfl, ?_, ?_, ?_, ?_⟩
  · rw [hro]
  · rw [hro]
    unfold allCandidates
    rw [List.filter_append]
    simp [telemetryCandidate]
  · rw [hro]
    unfold addCandidate
    rw [hmd]
    have hfind2 : (db.candidates ++ [telemetryCandidate tid details now]).find?
        (byName details.name) = some (telemetryCandidate tid details now) := by
      rw [find?_append_of_none hname]
      have : byName details.name (telemetryCandidate tid details now) = true := by
        simp [byName, telemetryCandidate]
      rw [List.find?_singleton, this]
      rfl
    rw [hfind2]
    have hupd : findOneAndUpdateBy (byName details.name)
        (fun c => configUpdate c (enc stashArg (ss58Format md)) ks ssk bio)
        (db.candidates ++ [telemetryCandidate tid details now]) =
        db.candidates ++ [configUpdate (telemetryCandidate tid details now)
          (enc stashArg (ss58Format md)) ks ssk bio] :=
      findOneAndUpdateBy_append_singleton hname (telemetryCandidate tid details now)
        (by simp [byName, telemetryCandidate])
    exact congrArg (fun x => some (Db.mk x (some md))) hupd
  · unfold allCandidates
    apply List.mem_filter.mpr
    constructor
    · exact List.mem_append.mpr (Or.inr (List.mem_singleton.mpr rfl))
    · simp [configUpdate]

/-- Witness for C10: a telemetry sighting of the unknown name `"node2"` over
`fixtureDb`, followed by `addCandidate` with the identity encoding. -/
theorem telemetry_candidate_hidden_witness :
    (telemetryCandidate 9 fixtureDetails 7).stash = none ∧
    (reportOnline fixtureDb 9 fixtureDetails 7).candidates =
      fixtureDb.candidates ++ [telemetryCandidate 9 fixtureDetails 7] ∧
    allCandidates (reportOnline fixtureDb 9 fixtureDetails 7) = allCandidates fixtureDb ∧
    addCandidate (fun s _ => s) (reportOnline fixtureDb 9 fixtureDetails 7)
        fixtureDetails.name "stash2" "kus2" false "bio2" =
      some { candidates := fixtureDb.candidates ++
               [configUpdate (telemetryCandidate 9 fixtureDetails 7)
                 ((fun (s : String) (_ : Nat) => s) "stash2"
                   (ss58Format { name := "Kusama", decimals := 12 })) "kus2" false "bio2"],
             chainMetadata := some { name := "Kusama", decimals := 12 } } ∧
    configUpdate (telemetryCandidate 9 fixtureDetails 7)
        ((fun (s : String) (_ : Nat) => s) "stash2"
          (ss58Format { name := "Kusama", decimals := 12 })) "kus2" false "bio2" ∈
      allCandidates { candidates := fixtureDb.candidates ++
                        [configUpdate (telemetryCandidate 9 fixtureDetails 7)
                          ((fun (s : String) (_ : Nat) => s) "stash2"
                            (ss58Format { name := "Kusama", decimals := 12 })) "kus2" false "bio2"],
                      chainMetadata := some { name := "Kusama", decimals := 12 } } :=
  telemetry_candidate_hidden fixtureDb 9 fixtureDetails 7 (fun s _ => s) "stash2" "kus2"
    false "bio2" { name := "Kusama", decimals := 12 } (by decide) (by decide)

/-! ### C4 — a second era-points run over a populated window still writes -/

/-- C4 (code behaviour at the failing input): over `populatedDb` every era
of the backfill window for active era 2 holds a `TotalEraPoints` row at the
70000 threshold with a set median, and the per-`(era, address)` rows match
the chain; yet running `eraPointsJob` a second time immediately after the
first run with the unchanged chain still performs a store write — the early
return of `setTotalEraPoints` compares the never-written `total` field
(`undefined`) with the chain total, so the active era's row is rewritten on
every run. -/
theorem eraPoints_second_run_still_writes :
    ((backfillEras 2).all fun i =>
      match populatedDb.totalEraPoints.find? (fun r => r.era == i) with
      | some r => decide (r.totalEraPoints ≥ 70000) && jsTruthyNum r.median
      | none => false) = true ∧
    ((backfillEras 2).all fun i =>
      (chainFixture i).validators.all fun v =>
        match populatedDb.eraPoints.find? (fun r => r.address == v.address && r.era == i) with
        | some r => r.eraPoints == v.eraPoints
        | none => false) = true ∧
    (eraPointsJob chainFixture 2 firstRunDb).2 = 1 := by
  decide
